import Mathlib

/-!
# Verification of the trust-badge engine

Shallow embedding of the badge issuance/verification engine of the
en-passant backend: the trust-score model (`trustScore.service.js`),
canonical JSON encoding and Ed25519 sign/verify wrappers
(`crypto.service.js`), and the badge lifecycle / verification state
machine (`badge.service.js`).  Machine integers are modelled as `Int`
(JavaScript numbers carry exact integer arithmetic in the ranges used
here); database rows are association lists; the Ed25519 primitive is a
parameter with its standard correctness contract.
-/

namespace TrustScore

/-- An identity anchor row as consumed by `calculateTrustScore`:
only `provider` and `is_edu_verified` are inspected. -/
structure Anchor where
  provider : String
  is_edu_verified : Bool
deriving Repr, DecidableEq

/-- The scoring weight table `POINTS` from `trustScore.service.js`. -/
structure PointsTable where
  BASE : Int
  GMAIL : Int
  LINKEDIN : Int
  EDU_BONUS : Int
deriving Repr, DecidableEq

/-- `POINTS` as configured in the source. -/
def POINTS : PointsTable :=
  { BASE := 20, GMAIL := 25, LINKEDIN := 30, EDU_BONUS := 25 }

/-- `MAX_SCORE` from the source. -/
def MAX_SCORE : Int := 100

/-- One entry of the score breakdown (`{ score, label }`). -/
structure BreakdownEntry where
  score : Int
  label : String
deriving Repr, DecidableEq

/-- The `breakdown` object built by `calculateTrustScore`. -/
structure Breakdown where
  base : BreakdownEntry
  gmail : BreakdownEntry
  linkedin : BreakdownEntry
  edu_bonus : BreakdownEntry
deriving Repr, DecidableEq

/-- A clearance level (`{ level, title, color, minScore }`). -/
structure Clearance where
  level : Int
  title : String
  color : String
  minScore : Int
deriving Repr, DecidableEq

def CLEARANCE_GRANDMASTER : Clearance := ⟨4, "Grandmaster", "gold", 100⟩

def CLEARANCE_MASTER : Clearance := ⟨3, "Master", "emerald", 75⟩

def CLEARANCE_PLAYER : Clearance := ⟨2, "Player", "blue", 50⟩

def CLEARANCE_SPECTATOR : Clearance := ⟨1, "Spectator", "gray", 0⟩

/-- `getClearanceLevel(score)` from `trustScore.service.js`. -/
def getClearanceLevel (score : Int) : Clearance :=
  if score ≥ 100 then CLEARANCE_GRANDMASTER
  else if score ≥ 75 then CLEARANCE_MASTER
  else if score ≥ 50 then CLEARANCE_PLAYER
  else CLEARANCE_SPECTATOR

/-- Result record of `calculateTrustScore`. -/
structure TrustScoreResult where
  score : Int
  breakdown : Breakdown
  eduVerified : Bool
  clearance : Clearance
deriving Repr, DecidableEq

/-- `calculateTrustScore(anchors)` from `trustScore.service.js`.
The source initialises the breakdown with the base points, then (when
`anchors` is nonempty) looks up the first `gmail` anchor (adding the
gmail points and, when that anchor is edu-verified, the edu bonus) and
the first `linkedin` anchor (adding the linkedin points); the score is
the component sum capped at `MAX_SCORE`. -/
def calculateTrustScore (anchors : List Anchor) : TrustScoreResult :=
  let gmail : Option Anchor :=
    if 0 < anchors.length then anchors.find? (fun a => a.provider == "gmail") else none
  let linkedin : Option Anchor :=
    if 0 < anchors.length then anchors.find? (fun a => a.provider == "linkedin") else none
  let gmailScore : Int := if gmail.isSome then POINTS.GMAIL else 0
  let eduVerified : Bool :=
    match gmail with
    | some g => g.is_edu_verified
    | none => false
  let eduScore : Int := if eduVerified then POINTS.EDU_BONUS else 0
  let linkedinScore : Int := if linkedin.isSome then POINTS.LINKEDIN else 0
  let breakdown : Breakdown :=
    { base := ⟨POINTS.BASE, "En Passant Account"⟩
      gmail := ⟨gmailScore, "Gmail Connected"⟩
      linkedin := ⟨linkedinScore, "LinkedIn Connected"⟩
      edu_bonus := ⟨eduScore, ".edu Email Verified"⟩ }
  let score : Int :=
    min (breakdown.base.score + breakdown.gmail.score +
         breakdown.linkedin.score + breakdown.edu_bonus.score) MAX_SCORE
  { score := score
    breakdown := breakdown
    eduVerified := eduVerified
    clearance := getClearanceLevel score }

/-- Sum of the four breakdown components (the uncapped score). -/
def breakdownSum (b : Breakdown) : Int :=
  b.base.score + b.gmail.score + b.linkedin.score + b.edu_bonus.score

end TrustScore

section TrustScoreClaims

open TrustScore

/-- C4 counterexample: on the empty anchor list the computed score is
20 (the unconditional base points), not 0 as claimed. -/
theorem calculateTrustScore_empty_not_zero :
    (calculateTrustScore []).score = 20 ∧ (calculateTrustScore []).score ≠ 0 := by
  constructor <;> decide

/-- C4 (amended): for the empty anchor list, the trust score
computation returns score = 20, the base points alone. -/
theorem calculateTrustScore_empty :
    (calculateTrustScore []).score = TrustScore.POINTS.BASE ∧
    (calculateTrustScore []).score = 20 := by
  constructor <;> decide

/-- C10: for every anchor set the computed score satisfies
`0 ≤ score ≤ 100`; the configured weights sum to exactly 100; and
whenever the uncapped component sum is exactly 100 the cap does not
reduce it: the score is still 100. -/
theorem calculateTrustScore_bounds (anchors : List TrustScore.Anchor) :
    (0 ≤ (calculateTrustScore anchors).score ∧
      (calculateTrustScore anchors).score ≤ 100) ∧
    TrustScore.POINTS.BASE + TrustScore.POINTS.GMAIL +
      TrustScore.POINTS.LINKEDIN + TrustScore.POINTS.EDU_BONUS = 100 ∧
    (breakdownSum (calculateTrustScore anchors).breakdown = 100 →
      (calculateTrustScore anchors).score = 100) := by
  refine ⟨?_, by decide, ?_⟩
  · unfold calculateTrustScore
    dsimp only
    constructor
    · split <;> split <;> split <;> simp [POINTS, MAX_SCORE] <;> omega
    · split <;> split <;> split <;> simp [POINTS, MAX_SCORE]
  · unfold calculateTrustScore breakdownSum
    dsimp only
    intro h
    rw [h]
    decide

/-- C10 witness: a concrete anchor set (edu-verified gmail plus
linkedin) whose uncapped component sum is exactly 100, where the
theorem yields score = 100. -/
theorem calculateTrustScore_bounds_witness :
    breakdownSum (calculateTrustScore [⟨"gmail", true⟩, ⟨"linkedin", false⟩]).breakdown = 100 ∧
    (calculateTrustScore [⟨"gmail", true⟩, ⟨"linkedin", false⟩]).score = 100 :=
  ⟨by decide,
    (calculateTrustScore_bounds [⟨"gmail", true⟩, ⟨"linkedin", false⟩]).2.2 (by decide)⟩

end TrustScoreClaims


namespace Canonical

/-- JSON values as produced by the JavaScript object model: atoms,
arrays, and objects as ordered association lists (insertion order). -/
inductive JValue where
  | null : JValue
  | bool (b : Bool) : JValue
  | num (n : Int) : JValue
  | str (s : String) : JValue
  | arr (elems : List JValue) : JValue
  | obj (fields : List (String × JValue)) : JValue
deriving Repr

def hexDigit (n : Nat) : Char :=
  if n < 10 then Char.ofNat (48 + n) else Char.ofNat (87 + n)

/-- JSON.stringify escaping of a single character. -/
def escapeChar (c : Char) : String :=
  if c = '"' then "\\\""
  else if c = '\\' then "\\\\"
  else if c = '\x08' then "\\b"
  else if c = '\x09' then "\\t"
  else if c = '\x0a' then "\\n"
  else if c = '\x0c' then "\\f"
  else if c = '\x0d' then "\\r"
  else if c.toNat < 32 then
    "\\u00" ++ String.singleton (hexDigit (c.toNat / 16)) ++
      String.singleton (hexDigit (c.toNat % 16))
  else String.singleton c

/-- JSON.stringify serialization of a string. -/
def quoteString (s : String) : String :=
  "\"" ++ String.join (s.data.map escapeChar) ++ "\""

/-- Insert a string into a sorted list (code-point order, the order
`Array.prototype.sort()` uses on strings). -/
def insertStr (a : String) : List String → List String
  | [] => [a]
  | b :: l => if a ≤ b then a :: b :: l else b :: insertStr a l

/-- `Array.prototype.sort()` on the string key list. -/
def sortStrings : List String → List String
  | [] => []
  | a :: l => insertStr a (sortStrings l)

/-- Insert a field into an association list sorted by key. -/
def insertPair (p : String × JValue) :
    List (String × JValue) → List (String × JValue)
  | [] => [p]
  | q :: l => if p.1 ≤ q.1 then p :: q :: l else q :: insertPair p l

/-- Sorting an association list by key (used by the normal form). -/
def sortFields : List (String × JValue) → List (String × JValue)
  | [] => []
  | p :: l => insertPair p (sortFields l)

mutual
/-- `JSON.stringify(v, K)` with an array replacer `K` (ECMA-262
`SerializeJSONProperty` with `PropertyList = K`): every object, at any
depth, emits exactly the keys of `K` that it binds, in the order of
`K`; arrays serialize all their elements. -/
def stringifyWith (K : List String) : JValue → String
  | .null => "null"
  | .bool b => if b then "true" else "false"
  | .num n => toString n
  | .str s => quoteString s
  | .arr xs => "[" ++ String.intercalate "," (arrItems K xs) ++ "]"
  | .obj fs => "\x7b" ++ String.intercalate "," (objItems K K fs) ++ "\x7d"
termination_by v => (sizeOf v, 0)

/-- Serialized items of an array. -/
def arrItems (K : List String) : List JValue → List String
  | [] => []
  | x :: xs => stringifyWith K x :: arrItems K xs
termination_by xs => (sizeOf xs, 0)

/-- Serialized `"key":value` items of an object: the keys of `ks`
that `fs` binds, in the order of `ks`. -/
def objItems (K : List String) (ks : List String) (fs : List (String × JValue)) :
    List String :=
  match ks with
  | [] => []
  | k :: ks' =>
    match h : fs.find? (fun p => p.1 == k) with
    | some p => (quoteString k ++ ":" ++ stringifyWith K p.2) :: objItems K ks' fs
    | none => objItems K ks' fs
termination_by (sizeOf fs, sizeOf ks)
decreasing_by
  · have hm := List.mem_of_find?_eq_some h
    have := List.sizeOf_lt_of_mem hm
    simp_wf
    cases p with
    | mk a b => simp at this ⊢; omega
  · simp_wf; omega
  · simp_wf; omega
end

/-- `canonicalJSON(obj)` from `crypto.service.js`:
`JSON.stringify(obj, Object.keys(obj).sort())` — stringify with the
sorted top-level key list as array replacer. -/
def canonicalJSON (fs : List (String × JValue)) : String :=
  stringifyWith (sortStrings (fs.map Prod.fst)) (.obj fs)

mutual
/-- Normal form: recursively sort every object's fields by key.  Two
values differ only in object-field insertion order (at any depth) iff
they have the same normal form (given duplicate-free keys). -/
def normalForm : JValue → JValue
  | .null => .null
  | .bool b => .bool b
  | .num n => .num n
  | .str s => .str s
  | .arr xs => .arr (normalFormList xs)
  | .obj fs => .obj (sortFields (normalFormFields fs))

def normalFormList : List JValue → List JValue
  | [] => []
  | x :: xs => normalForm x :: normalFormList xs

def normalFormFields : List (String × JValue) → List (String × JValue)
  | [] => []
  | (k, v) :: fs => (k, normalForm v) :: normalFormFields fs
end

mutual
/-- Well-formed JavaScript value: every object has duplicate-free
keys (JavaScript objects cannot bind one key twice). -/
def wfKeys : JValue → Bool
  | .null => true
  | .bool _ => true
  | .num _ => true
  | .str _ => true
  | .arr xs => wfList xs
  | .obj fs => decide ((fs.map Prod.fst).Nodup) && wfFields fs

def wfList : List JValue → Bool
  | [] => true
  | x :: xs => wfKeys x && wfList xs

def wfFields : List (String × JValue) → Bool
  | [] => true
  | (_, v) :: fs => wfKeys v && wfFields fs
end

-- ### basic lemmas

theorem keys_normalFormFields (fs : List (String × JValue)) :
    (normalFormFields fs).map Prod.fst = fs.map Prod.fst := by
  induction fs with
  | nil => simp [normalFormFields]
  | cons p fs ih => cases p; simp [normalFormFields, ih]

theorem find?_normalFormFields (fs : List (String × JValue)) (k : String) :
    (normalFormFields fs).find? (fun p => p.1 == k) =
      (fs.find? (fun p => p.1 == k)).map (fun p => (p.1, normalForm p.2)) := by
  induction fs with
  | nil => simp [normalFormFields]
  | cons p fs ih =>
    cases p with
    | mk a v =>
      by_cases hak : a = k
      · subst hak
        simp [normalFormFields, List.find?]
      · have hb : (a == k) = false := by simp [hak]
        simp [normalFormFields, List.find?, hb, ih]

theorem insertPair_perm (p : String × JValue) (l : List (String × JValue)) :
    (insertPair p l).Perm (p :: l) := by
  induction l with
  | nil => rfl
  | cons q l ih =>
    by_cases h : p.1 ≤ q.1
    · simp [insertPair, h]
    · simp only [insertPair, if_neg h]
      exact (ih.cons q).trans (List.Perm.swap p q l)

theorem sortFields_perm (l : List (String × JValue)) : (sortFields l).Perm l := by
  induction l with
  | nil => rfl
  | cons p l ih => exact (insertPair_perm p (sortFields l)).trans (ih.cons p)

theorem map_fst_insertPair (p : String × JValue) (l : List (String × JValue)) :
    (insertPair p l).map Prod.fst = insertStr p.1 (l.map Prod.fst) := by
  induction l with
  | nil => rfl
  | cons q l ih =>
    by_cases h : p.1 ≤ q.1
    · simp [insertPair, insertStr, h]
    · simp [insertPair, insertStr, h, ih]

theorem map_fst_sortFields (l : List (String × JValue)) :
    (sortFields l).map Prod.fst = sortStrings (l.map Prod.fst) := by
  induction l with
  | nil => rfl
  | cons p l ih => simp [sortFields, sortStrings, map_fst_insertPair, ih]

/-- `find?` by key is invariant under permutation when keys are
duplicate-free. -/
theorem find?_eq_of_perm {l l' : List (String × JValue)}
    (hp : l.Perm l') (hn : (l.map Prod.fst).Nodup) (k : String) :
    l.find? (fun p => p.1 == k) = l'.find? (fun p => p.1 == k) := by
  induction hp with
  | nil => rfl
  | cons x _ ih =>
    simp only [List.map_cons, List.nodup_cons] at hn
    by_cases hxk : x.1 = k
    · rw [List.find?_cons_of_pos _ (by simp [hxk]),
        List.find?_cons_of_pos _ (by simp [hxk])]
    · rw [List.find?_cons_of_neg _ (by simp [hxk]),
        List.find?_cons_of_neg _ (by simp [hxk]), ih hn.2]
  | swap x y l =>
    simp only [List.map_cons, List.nodup_cons, List.mem_cons] at hn
    have hxy : y.1 ≠ x.1 := fun h => hn.1 (Or.inl h)
    by_cases hyk : y.1 = k <;> by_cases hxk : x.1 = k
    · exact absurd (hyk.trans hxk.symm) hxy
    · rw [List.find?_cons_of_pos _ (by simp [hyk]),
        List.find?_cons_of_neg _ (by simp [hxk]),
        List.find?_cons_of_pos _ (by simp [hyk])]
    · rw [List.find?_cons_of_neg _ (by simp [hyk]),
        List.find?_cons_of_pos _ (by simp [hxk]),
        List.find?_cons_of_pos _ (by simp [hxk])]
    · rw [List.find?_cons_of_neg _ (by simp [hyk]),
        List.find?_cons_of_neg _ (by simp [hxk]),
        List.find?_cons_of_neg _ (by simp [hxk]),
        List.find?_cons_of_neg _ (by simp [hyk])]
  | trans h1 _ ih1 ih2 =>
    rw [ih1 hn, ih2 ((h1.map Prod.fst).nodup_iff.mp hn)]

end Canonical


namespace Canonical

/-- Unfolding equation for `objItems` on a cons key list, stated
with a plain (non-dependent) match. -/
theorem objItems_cons (K : List String) (k : String) (ks : List String)
    (fs : List (String × JValue)) :
    objItems K (k :: ks) fs =
      match fs.find? (fun p => p.1 == k) with
      | some p => (quoteString k ++ ":" ++ stringifyWith K p.2) :: objItems K ks fs
      | none => objItems K ks fs := by
  rw [objItems]
  split <;> rename_i heq <;> rw [heq]

theorem insertStr_perm (a : String) (l : List String) :
    (insertStr a l).Perm (a :: l) := by
  induction l with
  | nil => rfl
  | cons b l ih =>
    by_cases h : a ≤ b
    · simp [insertStr, h]
    · simp only [insertStr, if_neg h]
      exact (ih.cons b).trans (List.Perm.swap a b l)

theorem sortStrings_perm (l : List String) : (sortStrings l).Perm l := by
  induction l with
  | nil => rfl
  | cons a l ih => exact (insertStr_perm a (sortStrings l)).trans (ih.cons a)

theorem wfKeys_of_mem_wfFields {fs : List (String × JValue)} {p : String × JValue}
    (hwf : wfFields fs = true) (hm : p ∈ fs) : wfKeys p.2 = true := by
  induction fs with
  | nil => cases hm
  | cons q fs ih =>
    cases q with
    | mk a w =>
      have h' : wfKeys w = true ∧ wfFields fs = true := by
        simpa [wfFields, Bool.and_eq_true] using hwf
      rcases List.mem_cons.mp hm with h | h
      · subst h; exact h'.1
      · exact ih h'.2 h

mutual
theorem stringify_normalForm (K : List String) :
    (v : JValue) → wfKeys v = true →
      stringifyWith K (normalForm v) = stringifyWith K v
  | .null, _ => by simp [normalForm]
  | .bool b, _ => by simp [normalForm]
  | .num n, _ => by simp [normalForm]
  | .str s, _ => by simp [normalForm]
  | .arr xs, h => by
    have h' : wfList xs = true := by simpa [wfKeys] using h
    simp only [normalForm, stringifyWith]
    rw [arrItems_normalForm K xs h']
  | .obj fs, h => by
    have h' : (fs.map Prod.fst).Nodup ∧ wfFields fs = true := by
      simpa [wfKeys, Bool.and_eq_true] using h
    simp only [normalForm, stringifyWith]
    rw [objItems_normalForm K K fs h'.2 h'.1]
termination_by v => (sizeOf v, 0)

theorem arrItems_normalForm (K : List String) :
    (xs : List JValue) → wfList xs = true →
      arrItems K (normalFormList xs) = arrItems K xs
  | [], _ => by simp [normalFormList]
  | x :: xs', h => by
    have h' : wfKeys x = true ∧ wfList xs' = true := by
      simpa [wfList, Bool.and_eq_true] using h
    simp only [normalFormList, arrItems]
    rw [stringify_normalForm K x h'.1, arrItems_normalForm K xs' h'.2]
termination_by xs => (sizeOf xs, 0)

theorem objItems_normalForm (K : List String) :
    (ks : List String) → (fs : List (String × JValue)) →
      wfFields fs = true → (fs.map Prod.fst).Nodup →
      objItems K ks (sortFields (normalFormFields fs)) = objItems K ks fs
  | [], fs, _, _ => by simp [objItems]
  | k :: ks', fs, hwf, hnd => by
    have hnds : ((sortFields (normalFormFields fs)).map Prod.fst).Nodup := by
      rw [map_fst_sortFields, keys_normalFormFields]
      exact ((sortStrings_perm _).nodup_iff).mpr hnd
    rcases hf : fs.find? (fun p => p.1 == k) with _ | p
    · have hfind : (sortFields (normalFormFields fs)).find? (fun p => p.1 == k) = none := by
        rw [find?_eq_of_perm (sortFields_perm (normalFormFields fs)) hnds k,
          find?_normalFormFields, hf, Option.map_none']
      rw [objItems_cons, objItems_cons, hfind, hf]
      exact objItems_normalForm K ks' fs hwf hnd
    · have hfind : (sortFields (normalFormFields fs)).find? (fun p => p.1 == k) =
          some (p.1, normalForm p.2) := by
        rw [find?_eq_of_perm (sortFields_perm (normalFormFields fs)) hnds k,
          find?_normalFormFields, hf, Option.map_some']
      have hwp : wfKeys p.2 = true :=
        wfKeys_of_mem_wfFields hwf (List.mem_of_find?_eq_some hf)
      rw [objItems_cons, objItems_cons, hfind, hf]
      dsimp only
      rw [stringify_normalForm K p.2 hwp, objItems_normalForm K ks' fs hwf hnd]
termination_by ks fs => (sizeOf fs, sizeOf ks)
decreasing_by
  all_goals simp_wf
  all_goals try omega
  all_goals
    (have hm := List.mem_of_find?_eq_some hf
     have := List.sizeOf_lt_of_mem hm
     cases p with
     | mk a b => simp at this ⊢; omega)
end


theorem canonicalJSON_insertion_order_invariant
    (fs gs : List (String × JValue))
    (hf : wfKeys (.obj fs) = true) (hg : wfKeys (.obj gs) = true)
    (h : normalForm (.obj fs) = normalForm (.obj gs)) :
    canonicalJSON fs = canonicalJSON gs := by
  have hsort : sortFields (normalFormFields fs) = sortFields (normalFormFields gs) := by
    have h2 := h
    simp only [normalForm] at h2
    exact JValue.obj.inj h2
  have hK : sortStrings (fs.map Prod.fst) = sortStrings (gs.map Prod.fst) := by
    have h2 := congrArg (List.map Prod.fst) hsort
    rwa [map_fst_sortFields, map_fst_sortFields, keys_normalFormFields,
      keys_normalFormFields] at h2
  unfold canonicalJSON
  rw [← stringify_normalForm _ (.obj fs) hf, ← stringify_normalForm _ (.obj gs) hg, h, hK]

theorem canonicalJSON_order_witness :
    wfKeys (.obj [("b", .num 1), ("a", .obj [("y", .num 2), ("x", .bool true)])]) = true ∧
    wfKeys (.obj [("a", .obj [("x", .bool true), ("y", .num 2)]), ("b", .num 1)]) = true ∧
    normalForm (.obj [("b", .num 1), ("a", .obj [("y", .num 2), ("x", .bool true)])]) =
      normalForm (.obj [("a", .obj [("x", .bool true), ("y", .num 2)]), ("b", .num 1)]) ∧
    canonicalJSON [("b", .num 1), ("a", .obj [("y", .num 2), ("x", .bool true)])] =
      canonicalJSON [("a", .obj [("x", .bool true), ("y", .num 2)]), ("b", .num 1)] := by
  have h1 : wfKeys (.obj [("b", .num 1), ("a", .obj [("y", .num 2), ("x", .bool true)])]) = true := by
    simp +decide [wfKeys, wfFields, wfList]
  have h2 : wfKeys (.obj [("a", .obj [("x", .bool true), ("y", .num 2)]), ("b", .num 1)]) = true := by
    simp +decide [wfKeys, wfFields, wfList]
  have h3 : normalForm (.obj [("b", .num 1), ("a", .obj [("y", .num 2), ("x", .bool true)])]) =
      normalForm (.obj [("a", .obj [("x", .bool true), ("y", .num 2)]), ("b", .num 1)]) := by
    simp +decide [normalForm, normalFormFields, normalFormList, sortFields, insertPair]
  exact ⟨h1, h2, h3, canonicalJSON_insertion_order_invariant _ _ h1 h2 h3⟩

end Canonical

namespace Crypto

open Canonical

/-- Value of a base64 alphabet character (`A-Z a-z 0-9 + /`);
`none` for padding or invalid characters. -/
def b64Val (c : Char) : Option Nat :=
  if 'A' ≤ c ∧ c ≤ 'Z' then some (c.toNat - 65)
  else if 'a' ≤ c ∧ c ≤ 'z' then some (c.toNat - 97 + 26)
  else if '0' ≤ c ∧ c ≤ '9' then some (c.toNat - 48 + 52)
  else if c = '+' then some 62
  else if c = '/' then some 63
  else none

/-- Base64 alphabet character of a 6-bit value. -/
def b64Char (n : Nat) : Char :=
  if n < 26 then Char.ofNat (65 + n)
  else if n < 52 then Char.ofNat (97 + (n - 26))
  else if n < 62 then Char.ofNat (48 + (n - 52))
  else if n = 62 then '+'
  else '/'

/-- Standard base64 encoding with padding, three input bytes to four
output characters (`Buffer.prototype.toString('base64')`). -/
def encodeB64 : List Nat → List Char
  | [] => []
  | [a] => [b64Char (a / 4), b64Char (a % 4 * 16), '=', '=']
  | [a, b] => [b64Char (a / 4), b64Char (a % 4 * 16 + b / 16), b64Char (b % 16 * 4), '=']
  | a :: b :: c :: rest =>
    b64Char (a / 4) :: b64Char (a % 4 * 16 + b / 16) ::
      b64Char (b % 16 * 4 + c / 64) :: b64Char (c % 64) :: encodeB64 rest

/-- Base64 decoding, four characters to three bytes, with `'='`
padding (which `b64Val` maps to `none`) terminating a chunk early
(`Buffer.from(s, 'base64')`). -/
def decodeB64 : List Char → List Nat
  | c1 :: c2 :: c3 :: c4 :: rest =>
    match b64Val c1, b64Val c2, b64Val c3, b64Val c4 with
    | some v1, some v2, some v3, some v4 =>
      (v1 * 4 + v2 / 16) :: (v2 % 16 * 16 + v3 / 4) ::
        (v3 % 4 * 64 + v4) :: decodeB64 rest
    | some v1, some v2, some v3, none => [v1 * 4 + v2 / 16, v2 % 16 * 16 + v3 / 4]
    | some v1, some v2, none, _ => [v1 * 4 + v2 / 16]
    | _, _, _, _ => []
  | _ => []

theorem b64Val_b64Char : ∀ n < 64, b64Val (b64Char n) = some n := by decide

theorem b64Val_pad : b64Val '=' = none := by decide

/-- Base64 decoding inverts encoding on lists of bytes. -/
theorem decodeB64_encodeB64 :
    (l : List Nat) → (∀ b ∈ l, b < 256) → decodeB64 (encodeB64 l) = l
  | [], _ => rfl
  | [a], h => by
    have ha : a < 256 := h a (by simp)
    simp only [encodeB64, decodeB64]
    rw [b64Val_b64Char _ (by omega), b64Val_b64Char _ (by omega), b64Val_pad]
    dsimp only
    congr 1
    omega
  | [a, b], h => by
    have ha : a < 256 := h a (by simp)
    have hb : b < 256 := h b (by simp)
    simp only [encodeB64, decodeB64]
    rw [b64Val_b64Char _ (by omega), b64Val_b64Char _ (by omega),
      b64Val_b64Char _ (by omega), b64Val_pad]
    dsimp only
    congr 1
    · omega
    · congr 1
      omega
  | a :: b :: c :: rest, h => by
    have ha : a < 256 := h a (by simp)
    have hb : b < 256 := h b (by simp)
    have hc : c < 256 := h c (by simp)
    simp only [encodeB64, decodeB64]
    rw [b64Val_b64Char _ (by omega), b64Val_b64Char _ (by omega),
      b64Val_b64Char _ (by omega), b64Val_b64Char _ (by omega)]
    dsimp only
    rw [decodeB64_encodeB64 rest (fun x hx => h x (by simp [hx]))]
    congr 1
    · omega
    congr 1
    · omega
    congr 1
    omega

/-- An Ed25519 implementation: `sign(privateKey, message)` and
`verify(signature, message, publicKey)` over byte lists, as provided
by `@noble/ed25519`. -/
structure EdScheme where
  sign : List Nat → List Nat → List Nat
  verify : List Nat → List Nat → List Nat → Bool

/-- UTF-8 bytes of a string (`new TextEncoder().encode(...)`). -/
def utf8Encode (s : String) : List Nat :=
  s.toUTF8.toList.map (fun b => b.toNat)

/-- `signBadge(payload)` from `crypto.service.js`: canonical-JSON
encode the payload, UTF-8 it, Ed25519-sign with the loaded private
key, and base64 the 64-byte signature. -/
def signBadge (ed : EdScheme) (privateKey : List Nat)
    (payload : List (String × JValue)) : String :=
  String.mk (encodeB64 (ed.sign privateKey (utf8Encode (canonicalJSON payload))))

/-- `verifySignature(payload, signatureBase64)` from
`crypto.service.js`: re-encode the payload canonically and check the
base64-decoded signature against the loaded public key.  (The
source's try/catch returns `false` on malformed input; the model is
total.) -/
def verifySignature (ed : EdScheme) (publicKey : List Nat)
    (payload : List (String × JValue)) (signatureBase64 : String) : Bool :=
  ed.verify (decodeB64 signatureBase64.data)
    (utf8Encode (canonicalJSON payload)) publicKey

end Crypto

section CryptoClaims

open Canonical Crypto

/-- C1: sign/verify round-trip.  For any Ed25519 implementation that
is correct for the loaded keypair (verify accepts what sign produces,
and signatures are byte lists), and any badge payload, verifying the
signature produced by `signBadge` with `verifySignature` returns
true: both sides canonicalize the payload identically and base64
decoding inverts encoding. -/
theorem signBadge_verifySignature_roundtrip
    (ed : EdScheme) (privateKey publicKey : List Nat)
    (payload : List (String × JValue))
    (hcorrect : ∀ m : List Nat, ed.verify (ed.sign privateKey m) m publicKey = true)
    (hbytes : ∀ m : List Nat, ∀ b ∈ ed.sign privateKey m, b < 256) :
    verifySignature ed publicKey payload (signBadge ed privateKey payload) = true := by
  unfold verifySignature signBadge
  rw [show (String.mk (encodeB64 (ed.sign privateKey
      (utf8Encode (canonicalJSON payload))))).data =
      encodeB64 (ed.sign privateKey (utf8Encode (canonicalJSON payload))) from rfl]
  rw [decodeB64_encodeB64 _ (hbytes _)]
  exact hcorrect _

/-- A trivially correct scheme used to witness the round-trip
theorem's hypotheses. -/
def trivialScheme : EdScheme where
  sign := fun _ _ => [7]
  verify := fun s _ _ => s == [7]

/-- C1 witness: the round-trip theorem applied at a concrete scheme,
keypair and payload. -/
theorem signBadge_verifySignature_roundtrip_witness :
    verifySignature trivialScheme [] [("sub", .str "user-1")]
      (signBadge trivialScheme [] [("sub", .str "user-1")]) = true :=
  signBadge_verifySignature_roundtrip trivialScheme [] [] [("sub", .str "user-1")]
    (fun _ => rfl) (fun _ b hb => by simp [trivialScheme] at hb; omega)

end CryptoClaims

namespace Badge

/-- A presented badge payload (`payload` argument of `verifyBadge`).
`exp` is optional because `verifyBadge` guards it with the JavaScript
truthiness test `payload.exp && payload.exp < now` (an absent — or
zero — `exp` skips the test-path expiry check). -/
structure Payload where
  sub : String
  iss : String
  iat : Int
  exp : Option Int
  trust_score : Int
  badge_token : String
  edu_verified : Bool
deriving Repr, DecidableEq

/-- A stored `auth_badges` row (the columns `verifyBadge`,
`revokeBadge` and `revokeAllUserBadges` read or write).  Times are
epoch numbers. -/
structure BadgeRec where
  id : Nat
  user_id : String
  badge_token : String
  trust_score : Int
  issued_at : Int
  expires_at : Int
  revoked_at : Option Int
  revocation_reason : Option String
deriving Repr, DecidableEq

/-- A `badge_verifications` audit row (columns used by
`logVerification`; the context columns are always null here). -/
structure VerifRecord where
  badge_id : Nat
  verification_result : String
deriving Repr, DecidableEq

/-- Database state: the `auth_badges` table (association by
`badge_token`, which carries a uniqueness invariant) and the
append-only `badge_verifications` table. -/
structure DB where
  badges : List BadgeRec
  verifications : List VerifRecord
deriving Repr, DecidableEq

/-- Result object returned by `verifyBadge`.  Fields the source omits
on a given branch are `none`/`false` here. -/
structure VerifyResult where
  valid : Bool
  reason : Option String := none
  message : Option String := none
  trust_score : Option Int := none
  issued_at : Option Int := none
  expires_at : Option Int := none
  revoked_at : Option Int := none
  expired_at : Option Int := none
  test_mode : Bool := false
deriving Repr, DecidableEq

/-- `badge.revocation_reason || 'No reason provided'` (JavaScript
`||`: the empty string is falsy). -/
def reasonText : Option String → String
  | some r => if r = "" then "No reason provided" else r
  | none => "No reason provided"

/-- The test-mode guard: `payload?.sub?.startsWith('test-user-')`,
modelled as a character-list prefix test (the JavaScript semantics of
`String.prototype.startsWith`). -/
def testPrefix (p : Payload) : Bool :=
  "test-user-".data.isPrefixOf p.sub.data

/-- The test-path expiry guard `payload.exp && payload.exp < now`. -/
def expCond (p : Payload) (now : Int) : Bool :=
  match p.exp with
  | some e => e != 0 && decide (e < now)
  | none => false

/-- The verification outcome `verifyBadge` computes, as a function of
the signature checker `sv` (the Ed25519 check against the currently
configured public key), the current time, and the stored badges.
Mirrors the branch structure of `verifyBadge` in `badge.service.js`:
test-mode bypass, then not-found / revoked / expired / signature /
valid on the stored row. -/
def verificationResultOf (sv : Payload → String → Bool) (now : Int)
    (badges : List BadgeRec) (badgeToken : String) (p : Payload) (sig : String) :
    VerifyResult :=
  if testPrefix p then
    if expCond p now then
      { valid := false, reason := some "expired",
        message := some "Test badge has expired", test_mode := true }
    else if !(sv p sig) then
      { valid := false, reason := some "invalid_signature",
        message := some "Signature verification failed", test_mode := true }
    else
      { valid := true, trust_score := some p.trust_score,
        issued_at := some p.iat, expires_at := p.exp, test_mode := true }
  else
    match badges.find? (fun b => b.badge_token == badgeToken) with
    | none =>
      { valid := false, reason := some "badge_not_found",
        message := some "Badge does not exist" }
    | some b =>
      match b.revoked_at with
      | some t =>
        { valid := false, reason := some "revoked",
          message := some ("Badge was revoked: " ++ reasonText b.revocation_reason),
          revoked_at := some t }
      | none =>
        if b.expires_at < now then
          { valid := false, reason := some "expired",
            message := some "Badge has expired", expired_at := some b.expires_at }
        else if !(sv p sig) then
          { valid := false, reason := some "invalid_signature",
            message := some "Signature verification failed" }
        else
          { valid := true, trust_score := some b.trust_score,
            issued_at := some b.issued_at, expires_at := some b.expires_at }

/-- `verifyBadge(badgeToken, payload, signature)` including the audit
write: on the production path, when a stored badge was found, the
outcome is logged via `logVerification` (an INSERT that is awaited
with no try/catch — `auditOk = false` models that INSERT throwing,
which propagates as an error).  The test path returns before any
database access. -/
def verifyBadge (sv : Payload → String → Bool) (auditOk : Bool) (now : Int)
    (db : DB) (badgeToken : String) (p : Payload) (sig : String) :
    Except String (VerifyResult × DB) :=
  let res := verificationResultOf sv now db.badges badgeToken p sig
  if testPrefix p then .ok (res, db)
  else
    match db.badges.find? (fun b => b.badge_token == badgeToken) with
    | some b =>
      if auditOk then
        .ok (res, { db with verifications := db.verifications ++
          [⟨b.id, if res.valid then "valid" else res.reason.getD ""⟩] })
      else .error "audit write failed"
    | none => .ok (res, db)

/-- `revokeBadge(badgeToken, reason)`: the conditional UPDATE
`SET revoked_at = now, revocation_reason = reason WHERE badge_token =
$2 AND revoked_at IS NULL`, returning `rowCount > 0`. -/
def revokeBadge (db : DB) (badgeToken : String) (reason : String) (now : Int) :
    Bool × DB :=
  let hit := fun (b : BadgeRec) => b.badge_token == badgeToken && b.revoked_at.isNone
  let affected := db.badges.filter hit
  let badges' := db.badges.map (fun b =>
    if hit b then { b with revoked_at := some now, revocation_reason := some reason }
    else b)
  (decide (0 < affected.length), { db with badges := badges' })

/-- `revokeAllUserBadges(userId, reason)`: the same conditional
UPDATE keyed on `user_id`, returning the affected row count. -/
def revokeAllUserBadges (db : DB) (userId : String) (reason : String) (now : Int) :
    Nat × DB :=
  let hit := fun (b : BadgeRec) => b.user_id == userId && b.revoked_at.isNone
  let affected := db.badges.filter hit
  let badges' := db.badges.map (fun b =>
    if hit b then { b with revoked_at := some now, revocation_reason := some reason }
    else b)
  (affected.length, { db with badges := badges' })

/-- The operations that touch the `auth_badges` table.  `generate`
inserts a new unrevoked row; the (cryptographically random) token is
unique, so an insert with an existing token is rejected by the store
and changes nothing. -/
inductive Op where
  | generate (b : BadgeRec)
  | revoke (token : String) (reason : String) (now : Int)
  | revokeAll (userId : String) (reason : String) (now : Int)
  | verify (badgeToken : String) (p : Payload) (sig : String) (now : Int)
deriving Repr

def applyOp (sv : Payload → String → Bool) (op : Op) (db : DB) : DB :=
  match op with
  | .generate b =>
    if db.badges.any (fun r => r.badge_token == b.badge_token) then db
    else { db with badges := db.badges ++
      [{ b with revoked_at := none, revocation_reason := none }] }
  | .revoke t r n => (revokeBadge db t r n).2
  | .revokeAll u r n => (revokeAllUserBadges db u r n).2
  | .verify t p s n =>
    (((verifyBadge sv true n db t p s).toOption.map Prod.snd).getD db)

def applyOps (sv : Payload → String → Bool) (ops : List Op) (db : DB) : DB :=
  ops.foldl (fun d o => applyOp sv o d) db

/-- `revoked_at` of the stored badge for a token (none when the token
is unknown). -/
def revokedAt (db : DB) (badgeToken : String) : Option Int :=
  (db.badges.find? (fun b => b.badge_token == badgeToken)).bind
    (fun b => b.revoked_at)

/-- The stored badge for the token exists and has `revoked_at` set. -/
def isRevoked (db : DB) (badgeToken : String) : Bool :=
  (revokedAt db badgeToken).isSome

/-- `op` is one of the two revocation operations. -/
def isRevokeOp : Op → Bool
  | .revoke _ _ _ => true
  | .revokeAll _ _ _ => true
  | _ => false

end Badge



namespace Badge

theorem find?_token_map (f : BadgeRec → BadgeRec)
    (hf : ∀ b, (f b).badge_token = b.badge_token) (l : List BadgeRec) (t : String) :
    (l.map f).find? (fun b => b.badge_token == t) =
      (l.find? (fun b => b.badge_token == t)).map f := by
  induction l with
  | nil => rfl
  | cons b l ih =>
    by_cases hb : b.badge_token = t
    · rw [List.map_cons, List.find?_cons_of_pos _ (by simp [hf, hb]),
        List.find?_cons_of_pos _ (by simp [hb]), Option.map_some']
    · rw [List.map_cons, List.find?_cons_of_neg _ (by simp [hf, hb]),
        List.find?_cons_of_neg _ (by simp [hb]), ih]

set_option maxHeartbeats 1000000 in
theorem verifyBadge_ok_badges {sv : Payload → String → Bool} {a : Bool} {now : Int}
    {db : DB} {t : String} {p : Payload} {s : String} {r : VerifyResult} {db' : DB}
    (h : verifyBadge sv a now db t p s = Except.ok (r, db')) :
    db'.badges = db.badges := by
  unfold verifyBadge at h
  by_cases htp : testPrefix p = true
  · rw [if_pos htp] at h
    simp only [Except.ok.injEq, Prod.mk.injEq] at h
    rw [← h.2]
  · rw [if_neg htp] at h
    rcases hf : db.badges.find? (fun b => b.badge_token == t) with _ | b
    · simp only [hf] at h
      simp only [Except.ok.injEq, Prod.mk.injEq] at h
      rw [← h.2]
    · simp only [hf] at h
      by_cases haud : a = true
      · rw [if_pos haud] at h
        simp only [Except.ok.injEq, Prod.mk.injEq] at h
        rw [← h.2]
      · rw [if_neg haud] at h
        exact absurd h (by simp)

theorem except_snd_badges (e : Except String (VerifyResult × DB)) (db : DB)
    (h : ∀ r db', e = Except.ok (r, db') → db'.badges = db.badges) :
    ((e.toOption.map Prod.snd).getD db).badges = db.badges := by
  match e with
  | .error _ => rfl
  | .ok (r, db') => exact h r db' rfl

theorem badges_applyOp_verify (sv : Payload → String → Bool)
    (t : String) (p : Payload) (s : String) (n : Int) (db : DB) :
    (applyOp sv (.verify t p s n) db).badges = db.badges := by
  unfold applyOp
  exact except_snd_badges _ db (fun r db' he => verifyBadge_ok_badges he)

set_option maxHeartbeats 1000000 in
/-- No operation ever clears `revoked_at`: a token revoked in `db`
stays revoked after any single operation. -/
theorem isRevoked_applyOp (sv : Payload → String → Bool) (op : Op) (db : DB)
    (t : String) (h : isRevoked db t = true) :
    isRevoked (applyOp sv op db) t = true := by
  rcases hf : db.badges.find? (fun b => b.badge_token == t) with _ | r
  · unfold isRevoked revokedAt at h
    rw [hf] at h
    simp at h
  · have hrs : r.revoked_at.isSome := by
      unfold isRevoked revokedAt at h
      rw [hf] at h
      simpa using h
    match op with
    | .generate b =>
      simp only [applyOp]
      split
      · simp only [isRevoked, revokedAt]
        rw [hf]
        simpa using hrs
      · simp only [isRevoked, revokedAt]
        rw [List.find?_append, hf]
        simpa using hrs
    | .revoke t' r' n' =>
      simp only [applyOp, isRevoked, revokedAt, revokeBadge]
      dsimp only
      rw [find?_token_map _ (fun b => by split <;> rfl), hf, Option.map_some',
        Option.some_bind]
      split
      · rfl
      · exact hrs
    | .revokeAll u' r' n' =>
      simp only [applyOp, isRevoked, revokedAt, revokeAllUserBadges]
      dsimp only
      rw [find?_token_map _ (fun b => by split <;> rfl), hf, Option.map_some',
        Option.some_bind]
      split
      · rfl
      · exact hrs
    | .verify t' p' s' n' =>
      simp only [isRevoked, revokedAt]
      rw [badges_applyOp_verify, hf]
      simpa using hrs

/-- No sequence of operations ever clears `revoked_at`. -/
theorem isRevoked_applyOps (sv : Payload → String → Bool) (ops : List Op) (db : DB)
    (t : String) (h : isRevoked db t = true) :
    isRevoked (applyOps sv ops db) t = true := by
  induction ops generalizing db with
  | nil => exact h
  | cons op ops ih => exact ih _ (isRevoked_applyOp sv op db t h)

/-- On the production path, a revoked stored badge yields the
`revoked` diagnostic. -/
theorem verificationResultOf_of_revoked (sv : Payload → String → Bool) (now : Int)
    (db : DB) (t : String) (p : Payload) (sig : String)
    (hp : testPrefix p = false) (h : isRevoked db t = true) :
    (verificationResultOf sv now db.badges t p sig).valid = false ∧
    (verificationResultOf sv now db.badges t p sig).reason = some "revoked" := by
  unfold verificationResultOf
  rw [if_neg (by simp [hp] : ¬(testPrefix p = true))]
  unfold isRevoked revokedAt at h
  rcases hf : db.badges.find? (fun b => b.badge_token == t) with _ | b
  · rw [hf] at h; simp at h
  · rw [hf] at h
    simp only [Option.some_bind] at h
    rcases hr : b.revoked_at with _ | ta
    · rw [hr] at h; simp at h
    · simp [hf, hr]

/-- A successful `revokeBadge` leaves the token revoked. -/
theorem isRevoked_revokeBadge (db : DB) (t : String) (r : String) (n : Int)
    (hsucc : (revokeBadge db t r n).1 = true) :
    isRevoked (revokeBadge db t r n).2 t = true := by
  have hex : ∃ b ∈ db.badges, (b.badge_token == t && b.revoked_at.isNone) = true := by
    have h1 : 0 < (db.badges.filter
        (fun b => b.badge_token == t && b.revoked_at.isNone)).length := by
      simpa [revokeBadge] using hsucc
    rcases List.exists_mem_of_length_pos h1 with ⟨b, hb⟩
    exact ⟨b, (List.mem_filter.mp hb).1, (List.mem_filter.mp hb).2⟩
  have hsome : (db.badges.find? (fun b => b.badge_token == t)).isSome := by
    rw [List.find?_isSome]
    rcases hex with ⟨b, hb, hcond⟩
    simp only [Bool.and_eq_true] at hcond
    exact ⟨b, hb, hcond.1⟩
  rcases hfind : db.badges.find? (fun b => b.badge_token == t) with _ | b0
  · rw [hfind] at hsome; simp at hsome
  · have htok := List.find?_some hfind
    unfold isRevoked revokedAt revokeBadge
    dsimp only
    rw [find?_token_map _ (fun b => by split <;> rfl), hfind, Option.map_some',
      Option.some_bind]
    by_cases hhit : (b0.badge_token == t && b0.revoked_at.isNone) = true
    · rw [if_pos hhit]
      rfl
    · rw [if_neg hhit]
      cases hb0 : b0.revoked_at with
      | none => exact absurd (by simp [htok, hb0]) hhit
      | some x => rfl

end Badge

namespace Badge

/-- Non-revoke operations do not change `revoked_at` for any token. -/
theorem revokedAt_applyOp_nonrevoke (sv : Payload → String → Bool) (op : Op)
    (db : DB) (t : String) (h : isRevokeOp op = false) :
    revokedAt (applyOp sv op db) t = revokedAt db t := by
  match op with
  | .revoke _ _ _ => simp [isRevokeOp] at h
  | .revokeAll _ _ _ => simp [isRevokeOp] at h
  | .generate b =>
    simp only [applyOp]
    split
    · rfl
    · simp only [revokedAt, List.find?_append]
      rcases hf : db.badges.find? (fun r => r.badge_token == t) with _ | r
      · rw [hf]
        simp only [Option.none_or, List.find?]
        split <;> rfl
      · rw [hf]
        rfl
  | .verify t' p' s' n' =>
    simp only [revokedAt]
    rw [badges_applyOp_verify]

/-- Sample values used by the closed witnesses and counterexamples. -/
def svTrue : Payload → String → Bool := fun _ _ => true

def svFalse : Payload → String → Bool := fun _ _ => false

/-- A production (non-test) payload. -/
def pProd : Payload :=
  { sub := "5f3a", iss := "trustbridge", iat := 0, exp := some 100,
    trust_score := 45, badge_token := "tok1", edu_verified := false }

/-- A payload whose subject carries the test prefix. -/
def pTest : Payload :=
  { sub := "test-user-1", iss := "trustbridge", iat := 0, exp := some 100,
    trust_score := 45, badge_token := "tok1", edu_verified := false }

/-- A stored, active (unrevoked, unexpired at time 10) badge for
token `tok1`. -/
def bActive : BadgeRec :=
  { id := 1, user_id := "5f3a", badge_token := "tok1", trust_score := 80,
    issued_at := 0, expires_at := 100, revoked_at := none,
    revocation_reason := none }

def dbEmpty : DB := { badges := [], verifications := [] }

def dbOne : DB := { badges := [bActive], verifications := [] }

/-- A store in which `tok1` is revoked. -/
def dbRevoked : DB :=
  { badges := [{ bActive with revoked_at := some 3 }], verifications := [] }

/-- A store whose only badge belongs to a subject with the test
prefix. -/
def dbTestUser : DB :=
  { badges := [{ bActive with user_id := "test-user-1" }], verifications := [] }

end Badge

section BadgeClaims

open Badge

/-- C6: test-prefix bypass.  For every payload whose subject starts
with `test-user-`, the verification result is identical across any
two store states (no stored-badge lookup influences it), is never
`badge_not_found` or `revoked`, and `verifyBadge` returns it without
touching the store or the audit log (even with a failing audit
writer). -/
theorem verifyBadge_testPrefix_bypass (sv : Payload → String → Bool) (now : Int)
    (token sig : String) (p : Payload) (auditOk : Bool) (db1 db2 : DB)
    (h : testPrefix p = true) :
    verificationResultOf sv now db1.badges token p sig =
      verificationResultOf sv now db2.badges token p sig ∧
    (verificationResultOf sv now db1.badges token p sig).reason ≠ some "badge_not_found" ∧
    (verificationResultOf sv now db1.badges token p sig).reason ≠ some "revoked" ∧
    verifyBadge sv auditOk now db1 token p sig =
      Except.ok (verificationResultOf sv now db1.badges token p sig, db1) := by
  refine ⟨?_, ?_, ?_, ?_⟩
  · simp [verificationResultOf, h]
  · cases hexp : expCond p now <;> cases hsv : sv p sig <;>
      simp [verificationResultOf, h, hexp, hsv]
  · cases hexp : expCond p now <;> cases hsv : sv p sig <;>
      simp [verificationResultOf, h, hexp, hsv]
  · simp [verifyBadge, h]

/-- C6 witness: the bypass theorem at a concrete test payload, across
the empty store and a store holding a revoked badge for the presented
token. -/
theorem verifyBadge_testPrefix_bypass_witness :
    verificationResultOf svTrue 10 dbEmpty.badges "tok1" pTest "s" =
      verificationResultOf svTrue 10 dbRevoked.badges "tok1" pTest "s" ∧
    (verificationResultOf svTrue 10 dbEmpty.badges "tok1" pTest "s").reason ≠
      some "badge_not_found" ∧
    (verificationResultOf svTrue 10 dbEmpty.badges "tok1" pTest "s").reason ≠
      some "revoked" ∧
    verifyBadge svTrue false 10 dbEmpty "tok1" pTest "s" =
      Except.ok (verificationResultOf svTrue 10 dbEmpty.badges "tok1" pTest "s", dbEmpty) :=
  verifyBadge_testPrefix_bypass svTrue 10 "tok1" "s" pTest false dbEmpty dbRevoked
    (by decide)

/-- C2 (amended): on the production path (non-test payload), the
verification outcome follows the fixed evaluation order — (1) no
stored badge: `badge_not_found`; (2) `revoked_at` set: `revoked` with
the stored reason; (3) stored expiry in the past: `expired`
regardless of the signature; (4) failing signature:
`invalid_signature`; (5) otherwise `valid` with the score and
validity window of the stored badge row. -/
theorem verifyBadge_evaluation_order (sv : Payload → String → Bool) (now : Int)
    (badges : List BadgeRec) (token sig : String) (p : Payload)
    (hp : testPrefix p = false) :
    (badges.find? (fun b => b.badge_token == token) = none →
      verificationResultOf sv now badges token p sig =
        { valid := false, reason := some "badge_not_found",
          message := some "Badge does not exist" }) ∧
    (∀ b ta, badges.find? (fun b => b.badge_token == token) = some b →
      b.revoked_at = some ta →
      verificationResultOf sv now badges token p sig =
        { valid := false, reason := some "revoked",
          message := some ("Badge was revoked: " ++ reasonText b.revocation_reason),
          revoked_at := some ta }) ∧
    (∀ b, badges.find? (fun b => b.badge_token == token) = some b →
      b.revoked_at = none → b.expires_at < now →
      verificationResultOf sv now badges token p sig =
        { valid := false, reason := some "expired",
          message := some "Badge has expired", expired_at := some b.expires_at }) ∧
    (∀ b, badges.find? (fun b => b.badge_token == token) = some b →
      b.revoked_at = none → ¬ b.expires_at < now → sv p sig = false →
      verificationResultOf sv now badges token p sig =
        { valid := false, reason := some "invalid_signature",
          message := some "Signature verification failed" }) ∧
    (∀ b, badges.find? (fun b => b.badge_token == token) = some b →
      b.revoked_at = none → ¬ b.expires_at < now → sv p sig = true →
      verificationResultOf sv now badges token p sig =
        { valid := true, trust_score := some b.trust_score,
          issued_at := some b.issued_at, expires_at := some b.expires_at }) := by
  refine ⟨?_, ?_, ?_, ?_, ?_⟩
  · intro hf
    simp [verificationResultOf, hp, hf]
  · intro b ta hf hr
    simp [verificationResultOf, hp, hf, hr]
  · intro b hf hr he
    simp [verificationResultOf, hp, hf, hr, he]
  · intro b hf hr he hs
    simp [verificationResultOf, hp, hf, hr, he, hs]
  · intro b hf hr he hs
    simp [verificationResultOf, hp, hf, hr, he, hs]

/-- C2 counterexample: a verification with no stored badge reports
reason `badge_not_found`, not `not_found` as the claim states. -/
theorem verifyBadge_not_found_reason_counterexample :
    (verificationResultOf svFalse 0 [] "tok1" pProd "s").reason = some "badge_not_found" ∧
    (verificationResultOf svFalse 0 [] "tok1" pProd "s").reason ≠ some "not_found" := by
  constructor <;> decide

/-- C2 witness: the evaluation-order theorem at a concrete store
whose badge is expired, with a failing signature checker — the
diagnostic is still `expired`. -/
theorem verifyBadge_evaluation_order_witness :
    verificationResultOf svFalse 200 [bActive] "tok1" pProd "s" =
      { valid := false, reason := some "expired",
        message := some "Badge has expired", expired_at := some 100 } :=
  (verifyBadge_evaluation_order svFalse 200 [bActive] "tok1" "s" pProd
    (by decide)).2.2.1 bActive (by decide) (by decide) (by decide)

end BadgeClaims

section BadgeClaims2

open Badge

/-- C3 (amended): monotonic revocation for non-test payloads.  Once
`revokeBadge` succeeds for a token, then after any further sequence
of operations the token is still revoked, and every verification of
that token whose payload subject does not carry the `test-user-`
prefix returns invalid with reason `revoked`.  (The test-prefix
bypass of C6 is the sole exception forcing the restriction.) -/
theorem revocation_monotonic (sv : Payload → String → Bool) (ops : List Op)
    (db0 : DB) (t rsn sig : String) (n0 now : Int) (p : Payload)
    (hsucc : (revokeBadge db0 t rsn n0).1 = true) (hp : testPrefix p = false) :
    isRevoked (applyOps sv ops (revokeBadge db0 t rsn n0).2) t = true ∧
    (verificationResultOf sv now
      (applyOps sv ops (revokeBadge db0 t rsn n0).2).badges t p sig).valid = false ∧
    (verificationResultOf sv now
      (applyOps sv ops (revokeBadge db0 t rsn n0).2).badges t p sig).reason =
      some "revoked" := by
  have h1 := isRevoked_revokeBadge db0 t rsn n0 hsucc
  have h2 := isRevoked_applyOps sv ops _ t h1
  exact ⟨h2, verificationResultOf_of_revoked sv now _ t p sig hp h2⟩

/-- C3 counterexample: the claim as stated (no later input makes a
revoked token verify valid) fails.  A badge issued to a subject with
the test prefix is revoked (revoke succeeds), yet presenting the same
token with the test-prefixed payload and an accepted signature
returns valid — the bypass skips the revocation check. -/
theorem revocation_monotonic_counterexample :
    (revokeBadge dbTestUser "tok1" "fraud" 5).1 = true ∧
    (verificationResultOf svTrue 10
      (revokeBadge dbTestUser "tok1" "fraud" 5).2.badges "tok1" pTest "s").valid = true ∧
    (verificationResultOf svTrue 10
      (revokeBadge dbTestUser "tok1" "fraud" 5).2.badges "tok1" pTest "s").reason ≠
      some "revoked" := by
  refine ⟨?_, ?_, ?_⟩ <;> decide

/-- C3 witness: the amended theorem at a concrete run — revoke an
active badge, then generate another badge and run a verification, and
check the token still reports `revoked` for a production payload. -/
theorem revocation_monotonic_witness :
    (revokeBadge dbOne "tok1" "abuse" 5).1 = true ∧
    isRevoked (applyOps svTrue
      [.generate { bActive with id := 2, badge_token := "tok2" },
       .verify "tok1" pProd "s" 7]
      (revokeBadge dbOne "tok1" "abuse" 5).2) "tok1" = true ∧
    (verificationResultOf svTrue 10
      (applyOps svTrue
        [.generate { bActive with id := 2, badge_token := "tok2" },
         .verify "tok1" pProd "s" 7]
        (revokeBadge dbOne "tok1" "abuse" 5).2).badges "tok1" pProd "s").reason =
      some "revoked" := by
  have h := revocation_monotonic svTrue
    [.generate { bActive with id := 2, badge_token := "tok2" },
     .verify "tok1" pProd "s" 7]
    dbOne "tok1" "abuse" "s" 5 10 pProd (by decide) (by decide)
  exact ⟨by decide, h.1, h.2.2⟩

/-- C7: the claim is right and the code is wrong.  When a stored
badge is found, `verifyBadge` awaits the audit INSERT with no
try/catch, so a failing audit write propagates as an error and the
already-computed verification outcome is never returned to the
caller.  Here the outcome was `valid`, yet the call returns the audit
error instead. -/
theorem verifyBadge_audit_failure_blocks_result :
    (verificationResultOf svTrue 10 dbOne.badges "tok1" pProd "s").valid = true ∧
    verifyBadge svTrue false 10 dbOne "tok1" pProd "s" =
      Except.error "audit write failed" := by
  exact ⟨by decide, rfl⟩

/-- C8 counterexample: a verification attempt whose result is
`badge_not_found` appends no audit record — the store (including the
`badge_verifications` log) is returned unchanged, refuting "every
verification attempt is recorded". -/
theorem verifyBadge_not_found_not_logged :
    (verificationResultOf svTrue 0 dbEmpty.badges "tok1" pProd "s").reason =
      some "badge_not_found" ∧
    verifyBadge svTrue true 0 dbEmpty "tok1" pProd "s" =
      Except.ok (verificationResultOf svTrue 0 dbEmpty.badges "tok1" pProd "s", dbEmpty) := by
  exact ⟨by decide, rfl⟩

/-- C8 (amended): the audit log records exactly the production-path
attempts that found a stored badge: such an attempt appends one
record carrying the computed outcome (`valid` or the failure reason),
while a not-found attempt appends nothing (and C6 covers the test
path, which also appends nothing). -/
theorem verifyBadge_audit_logging (sv : Payload → String → Bool) (now : Int)
    (db : DB) (token sig : String) (p : Payload) (hp : testPrefix p = false) :
    (∀ b, db.badges.find? (fun r => r.badge_token == token) = some b →
      verifyBadge sv true now db token p sig =
        Except.ok (verificationResultOf sv now db.badges token p sig,
          { db with verifications := db.verifications ++
            [⟨b.id,
              if (verificationResultOf sv now db.badges token p sig).valid then "valid"
              else (verificationResultOf sv now db.badges token p sig).reason.getD ""⟩] })) ∧
    (db.badges.find? (fun r => r.badge_token == token) = none →
      verifyBadge sv true now db token p sig =
        Except.ok (verificationResultOf sv now db.badges token p sig, db)) := by
  constructor
  · intro b hf
    unfold verifyBadge
    rw [if_neg (by simp [hp])]
    simp [hf]
  · intro hf
    unfold verifyBadge
    rw [if_neg (by simp [hp])]
    simp [hf]

/-- C8 witness: the logging theorem at a concrete found badge — the
appended record carries the badge id and the computed outcome. -/
theorem verifyBadge_audit_logging_witness :
    verifyBadge svTrue true 10 dbOne "tok1" pProd "s" =
      Except.ok (verificationResultOf svTrue 10 dbOne.badges "tok1" pProd "s",
        { dbOne with verifications := dbOne.verifications ++
          [⟨bActive.id,
            if (verificationResultOf svTrue 10 dbOne.badges "tok1" pProd "s").valid
            then "valid"
            else (verificationResultOf svTrue 10 dbOne.badges "tok1" pProd "s").reason.getD ""⟩] }) :=
  (verifyBadge_audit_logging svTrue 10 dbOne "tok1" "s" pProd (by decide)).1
    bActive (by decide)

end BadgeClaims2

section BadgeClaims3

open Badge

/-- C9: revocation behaviour.  (1) When no stored row matches the
token with `revoked_at` null (unknown token or already revoked),
`revokeBadge` is a no-op returning false — nothing to revoke, and no
error is possible since the operation is total.  (2) When such a row
exists, it returns true and the token ends up revoked.  (3) The new
store is exactly the conditional update guarded on `revoked_at` being
null, storing the reason.  (4) Nothing ever clears `revoked_at`.
(5) Operations other than the two revocation paths leave `revoked_at`
unchanged for every token — revocation is the only path that sets
it. -/
theorem revokeBadge_idempotent_and_guarded :
    (∀ (db : DB) (t r : String) (n : Int),
      (db.badges.filter (fun b => b.badge_token == t && b.revoked_at.isNone)).length = 0 →
      revokeBadge db t r n = (false, db)) ∧
    (∀ (db : DB) (t r : String) (n : Int),
      0 < (db.badges.filter (fun b => b.badge_token == t && b.revoked_at.isNone)).length →
      (revokeBadge db t r n).1 = true ∧ isRevoked (revokeBadge db t r n).2 t = true) ∧
    (∀ (db : DB) (t r : String) (n : Int),
      (revokeBadge db t r n).2.badges =
        db.badges.map (fun b =>
          if b.badge_token == t && b.revoked_at.isNone then
            { b with revoked_at := some n, revocation_reason := some r }
          else b)) ∧
    (∀ (sv : Payload → String → Bool) (op : Op) (db : DB) (t : String),
      isRevoked db t = true → isRevoked (applyOp sv op db) t = true) ∧
    (∀ (sv : Payload → String → Bool) (op : Op) (db : DB) (t : String),
      isRevokeOp op = false → revokedAt (applyOp sv op db) t = revokedAt db t) := by
  refine ⟨?_, ?_, fun db t r n => rfl, isRevoked_applyOp, revokedAt_applyOp_nonrevoke⟩
  · intro db t r n h0
    have hnil : db.badges.filter (fun b => b.badge_token == t && b.revoked_at.isNone) = [] :=
      List.length_eq_zero.mp h0
    have hall : ∀ b ∈ db.badges, ¬((b.badge_token == t && b.revoked_at.isNone) = true) := by
      simpa [List.filter_eq_nil] using hnil
    have hmap : db.badges.map (fun b =>
        if b.badge_token == t && b.revoked_at.isNone then
          { b with revoked_at := some n, revocation_reason := some r }
        else b) = db.badges := by
      have := List.map_congr_left (l := db.badges)
        (f := fun b => if b.badge_token == t && b.revoked_at.isNone then
          { b with revoked_at := some n, revocation_reason := some r } else b)
        (g := id) (fun b hb => if_neg (hall b hb))
      simpa using this
    unfold revokeBadge
    dsimp only
    rw [hnil, hmap]
    rfl
  · intro db t r n h0
    have h1 : (revokeBadge db t r n).1 = true := by
      unfold revokeBadge
      dsimp only
      simpa using h0
    exact ⟨h1, isRevoked_revokeBadge db t r n h1⟩

/-- C9 witness: the theorem at concrete stores — revoking an unknown
token and an already-revoked token is a no-op returning false;
revoking an active badge returns true and leaves the token revoked;
and a generate operation leaves `revoked_at` untouched. -/
theorem revokeBadge_idempotent_and_guarded_witness :
    revokeBadge dbEmpty "tok1" "r" 5 = (false, dbEmpty) ∧
    revokeBadge dbRevoked "tok1" "r" 5 = (false, dbRevoked) ∧
    ((revokeBadge dbOne "tok1" "r" 5).1 = true ∧
      isRevoked (revokeBadge dbOne "tok1" "r" 5).2 "tok1" = true) ∧
    revokedAt (applyOp svTrue (.generate { bActive with id := 2, badge_token := "tok2" })
      dbRevoked) "tok1" = revokedAt dbRevoked "tok1" :=
  ⟨revokeBadge_idempotent_and_guarded.1 dbEmpty "tok1" "r" 5 (by decide),
   revokeBadge_idempotent_and_guarded.1 dbRevoked "tok1" "r" 5 (by decide),
   revokeBadge_idempotent_and_guarded.2.1 dbOne "tok1" "r" 5 (by decide),
   revokeBadge_idempotent_and_guarded.2.2.2.2 svTrue
     (.generate { bActive with id := 2, badge_token := "tok2" }) dbRevoked "tok1"
     (by decide)⟩

end BadgeClaims3
